import Mathlib

/-!
Verification development for the protein-preparation orchestration module
(htmd/proteinpreparation/proteinpreparation.py).

The module is thin orchestration over external engines.  The shallow
embedding below translates the orchestration function and its two local
helpers directly from the source.  The external collaborators (the PDB
parsing/writing subsystem, the structural preparation engine, the pKa
engine, the in-memory structure container and the residue annotation
table) are modelled from the specification: the engines as abstract
function parameters, the containers as explicit Lean structures.
-/

/-- Modelled from the spec: an atom record of the preparation engines
output object graph (fields read by the orchestration loop: name,
coordinates, segment id, element).  Coordinates are opaque payload here
and are represented by integers. -/
structure PAtom where
  name : String
  x : Int
  y : Int
  z : Int
  segID : String
  element : String
  deriving DecidableEq

/-- Modelled from the spec: a residue object of the preparation engines
output graph.  The field ffname is the assigned force-field name variant
(absent or empty when the engine assigned none), patches is the list of
applied structural patches (empty when the attribute is missing or empty),
and wasFlipped is the flip flag (none when the attribute is absent, the
source sentinel UNDEF). -/
structure PdbResidue where
  name : String
  resSeq : Int
  chainID : String
  iCode : String
  ffname : Option String
  patches : List String
  wasFlipped : Option Bool
  atoms : List PAtom
  deriving DecidableEq

/-- Identity of a residue as used by the annotation table. -/
structure ResidueKey where
  resname : String
  resid : Int
  chain : String
  insertion : String
  deriving DecidableEq

/-- Key of a residue object. -/
def PdbResidue.key (r : PdbResidue) : ResidueKey :=
  { resname := r.name, resid := r.resSeq, chain := r.chainID, insertion := r.iCode }

/-- Modelled from the spec: one per-titratable-residue result of the pKa
engine, a pKa value and a burial estimate. -/
structure PkaRecord where
  key : ResidueKey
  pKa : Rat
  buried : Rat
  deriving DecidableEq

/-- Modelled from the spec: the protein object returned by the preparation
engine, holding the optimized residue list and the pKa engine results. -/
structure PdbProtein where
  residues : List PdbResidue
  pka_protein : List PkaRecord
  deriving DecidableEq

/-- Modelled from the spec: an atom record produced by the external PDB
parsing subsystem (black box; content opaque to this module). -/
structure PdbRecord where
  raw : String
  deriving DecidableEq

/-- Options handed to the external engines by the orchestration function. -/
structure RunOpts where
  ph : Rat
  verbose : Nat
  ff : String
  ffout : String
  ph_calc_method : String
  propkaVerbosity : Nat
  holdList : Option (List (Int × String × String))
  deriving DecidableEq

/-- Result record of the external preparation engine call. -/
structure RunResult where
  header : String
  pqr : String
  missedLigands : List String
  protein : PdbProtein
  deriving DecidableEq

/-- Modelled from the spec: one atom of the in-memory molecular-structure
container, with the attribute fields the orchestration code touches. -/
structure Atom where
  name : String
  resname : String
  chain : String
  resid : Int
  insertion : String
  coords : Int × Int × Int
  segid : String
  element : String
  deriving DecidableEq

/-- Modelled from the spec: the in-memory molecular-structure container
(external data type); its attribute arrays are views of the atom list. -/
structure Molecule where
  atoms : List Atom
  deriving DecidableEq

/-- Modelled from the spec: copying the container yields an independent
structure with the same content (pure-value semantics). -/
def Molecule.copy (m : Molecule) : Molecule := m

/-- Modelled from the spec: filtering keeps the atoms selected by a
per-atom predicate (the atom-selection language of the container is
external; a selection denotes a predicate on atom attributes). -/
def Molecule.filterSel (m : Molecule) (sel : Atom → Bool) : Molecule :=
  { atoms := m.atoms.filter sel }

/-- Modelled from the spec: an atom selection evaluates to a boolean mask
over the atoms in their global order. -/
def Molecule.atomselect (m : Molecule) (sel : Atom → Bool) : List Bool :=
  m.atoms.map sel

/-- Rename atoms under a boolean mask, leaving atoms beyond the mask
untouched. -/
def setNames (v : String) : List Atom → List Bool → List Atom
  | [], _ => []
  | a :: rest, [] => a :: rest
  | a :: rest, b :: bs =>
      (if b then { a with name := v } else a) :: setNames v rest bs

/-- Modelled from the spec: setting the name attribute under a selection
mask. -/
def Molecule.setNameMask (m : Molecule) (v : String) (mask : List Bool) : Molecule :=
  { atoms := setNames v m.atoms mask }

/-- Attribute-array view: names. -/
def Molecule.name (m : Molecule) : List String := m.atoms.map Atom.name

/-- Attribute-array view: residue names. -/
def Molecule.resname (m : Molecule) : List String := m.atoms.map Atom.resname

/-- Attribute-array view: residue ids. -/
def Molecule.resid (m : Molecule) : List Int := m.atoms.map Atom.resid

/-- Attribute-array view: chains. -/
def Molecule.chain (m : Molecule) : List String := m.atoms.map Atom.chain

/-- Attribute-array view: insertion codes. -/
def Molecule.insertion (m : Molecule) : List String := m.atoms.map Atom.insertion

/-- Modelled from the spec: the annotation table about residues (external
reporting data type; only its write interface is used by this module).
Each write appends a row keyed by residue identity; the missed-ligand
list, the pKa results, the engine protein object and the header/pqr
payloads are stored as attributes. -/
structure ResidueData where
  header : String := ""
  pqr : String := ""
  protonation : List (ResidueKey × String) := []
  patchesTbl : List (ResidueKey × String) := []
  flippedTbl : List (ResidueKey × Bool) := []
  pkas : List PkaRecord := []
  missedLigands : List String := []
  pdb2pqrProtein : Option PdbProtein := none
  membraneThickness : Option Rat := none
  deriving DecidableEq

/-- Modelled from the spec: record the assigned name variant (protonation
state) of a residue. -/
def ResidueData.setProtonationState (rd : ResidueData) (k : ResidueKey) (v : String) : ResidueData :=
  { rd with protonation := rd.protonation ++ [(k, v)] }

/-- Modelled from the spec: record one applied structural patch of a
residue. -/
def ResidueData.appendPatches (rd : ResidueData) (k : ResidueKey) (p : String) : ResidueData :=
  { rd with patchesTbl := rd.patchesTbl ++ [(k, p)] }

/-- Modelled from the spec: record the flip flag of a residue. -/
def ResidueData.setFlipped (rd : ResidueData) (k : ResidueKey) (b : Bool) : ResidueData :=
  { rd with flippedTbl := rd.flippedTbl ++ [(k, b)] }

/-- Modelled from the spec: import the per-titratable-residue pKa values
and burial estimates computed by the pKa engine into the table. -/
def ResidueData.importPKAs (rd : ResidueData) (pk : List PkaRecord) : ResidueData :=
  { rd with pkas := pk }

/-- Modelled from the spec: the close-to-pH warning only logs and does not
change the table. -/
def ResidueData.warnIfpKCloseTopH (rd : ResidueData) (_pH : Rat) : ResidueData := rd

/-- Modelled from the spec: the membrane-exposure pass records the
thickness it was given (its warnings only log). -/
def ResidueData.setMembraneExposureAndWarn (rd : ResidueData) (t : Rat) : ResidueData :=
  { rd with membraneThickness := some t }

/-- Modelled from the spec: the external subsystems, as abstract
functions.  writeStructure serializes the structure to the interchange
representation, readPDB parses it back into atom records and errors,
runPDB2PQR is the combined preparation and pKa engine call, selEval gives
a user selection string its per-atom meaning. -/
structure Engines where
  writeStructure : Molecule → String
  readPDB : String → List PdbRecord × List String
  runPDB2PQR : List PdbRecord → RunOpts → RunResult
  selEval : String → Atom → Bool

/-- Translation of the helper _selToHoldList: a falsy selection gives
None, otherwise the selection is applied to a copy of the molecule, that
copy is filtered down to the CA atoms, and the (resid, chain, insertion)
triples are zipped.  The second component is the state of the input
molecule after the call. -/
def _selToHoldList (ev : String → Atom → Bool) (mol : Molecule) (sel : Option String) :
    Option (List (Int × String × String)) × Molecule :=
  match sel with
  | none => (none, mol)
  | some s =>
      if s = "" then (none, mol)
      else
        let tx := mol.copy
        let tx2 := tx.filterSel (ev s)
        let tx3 := tx2.filterSel (fun a => a.name == "CA")
        (some (tx3.resid.zip (tx3.chain.zip tx3.insertion)), mol)

/-- Zip of the eight parallel attribute lists into atom records, in the
field order of _fillMolecule. -/
def zipAtoms : List String → List String → List String → List Int → List String →
    List (Int × Int × Int) → List String → List String → List Atom
  | n :: ns, rn :: rns, c :: cs, ri :: ris, ins :: inss, co :: cos, s :: ss, e :: es =>
      { name := n, resname := rn, chain := c, resid := ri, insertion := ins,
        coords := co, segid := s, element := e } :: zipAtoms ns rns cs ris inss cos ss es
  | _, _, _, _, _, _, _, _ => []

/-- Translation of _fillMolecule: build a fresh Molecule from the eight
parallel attribute lists (the call sites build them in lockstep, so the
lists have equal lengths). -/
def _fillMolecule (name resname chain : List String) (resid : List Int)
    (insertion : List String) (coords : List (Int × Int × Int))
    (segid elements : List String) : Molecule :=
  { atoms := zipAtoms name resname chain resid insertion coords segid elements }

/-- Selection for resname WAT and name OW. -/
def selWatOW (a : Atom) : Bool := a.resname == "WAT" && a.name == "OW"

/-- Selection for resname WAT and name HW. -/
def selWatHW (a : Atom) : Bool := a.resname == "WAT" && a.name == "HW"

/-- Translation of _fixupWaterNames: rename WAT OW HW HW atoms as O H1 H2.
The even/odd masks are computed over the whole-molecule atom index. -/
def _fixupWaterNames (mol : Molecule) : Molecule :=
  let m1 := mol.setNameMask "O" (mol.atomselect selWatOW)
  let hw := m1.atomselect selWatHW
  let n := List.range hw.length
  let hwEven := List.zipWith (fun b i => b && (i % 2 == 0)) hw n
  let hwOdd := List.zipWith (fun b i => b && (i % 2 == 1)) hw n
  let m2 := m1.setNameMask "H1" hwEven
  m2.setNameMask "H2" hwOdd

/-- Translation of the residue-name choice in the orchestration loop: the
ffname attribute when truthy, truncated to its last three characters when
at least four long, and the plain residue name otherwise. -/
def currResname (rr : PdbResidue) : String :=
  match rr.ffname with
  | some s =>
      if s = "" then rr.name
      else if 4 ≤ s.length then s.drop (s.length - 3)
      else s
  | none => rr.name

/-- Translation of the annotation updates of one loop iteration: record
the protonation state, every patch, and the flip flag when present. -/
def annotateResidue (rd : ResidueData) (rr : PdbResidue) : ResidueData :=
  let rd1 := rd.setProtonationState rr.key (currResname rr)
  let rd2 := rr.patches.foldl (fun acc p => acc.appendPatches rr.key p) rd1
  match rr.wasFlipped with
  | some b => rd2.setFlipped rr.key b
  | none => rd2

/-- Observable phases of the orchestration function. -/
inductive Ev where
  | exportPhase
  | invokePhase
  | materializePhase
  deriving DecidableEq

/-- Everything the orchestration function computed: the materialized
structure and annotation table, the state of the input after the call,
the value the function returns, and the arguments handed to the engine
call. -/
structure PrepResult where
  molOut : Molecule
  resData : ResidueData
  molInAfter : Molecule
  returned : Molecule × Option ResidueData
  callRecords : List PdbRecord
  callOpts : RunOpts
  engineResult : RunResult
  deriving DecidableEq

/-- Body of prepareProtein after the interchange read check: derive the
hold list, call the engines, walk the output residues accumulating the
eight attribute lists and the annotation rows, materialize the Molecule,
fix up water names, and import the pKa results. -/
def runPrep (eng : Engines) (molIn : Molecule) (pH : Rat) (verbose : Nat)
    (returnDetails : Bool) (hydrophobicThickness : Option Rat)
    (holdSelection : Option String) (pdblist : List PdbRecord) : PrepResult :=
  let hpair := _selToHoldList eng.selEval molIn holdSelection
  let opts : RunOpts :=
    { ph := pH, verbose := verbose, ff := "parse", ffout := "amber",
      ph_calc_method := "propka31", propkaVerbosity := verbose, holdList := hpair.1 }
  let res := eng.runPDB2PQR pdblist opts
  let name := res.protein.residues.flatMap (fun rr => rr.atoms.map PAtom.name)
  let resid := res.protein.residues.flatMap (fun rr => rr.atoms.map (fun _ => rr.resSeq))
  let chain := res.protein.residues.flatMap (fun rr => rr.atoms.map (fun _ => rr.chainID))
  let insertion := res.protein.residues.flatMap (fun rr => rr.atoms.map (fun _ => rr.iCode))
  let coords := res.protein.residues.flatMap (fun rr => rr.atoms.map (fun a => (a.x, a.y, a.z)))
  let resname := res.protein.residues.flatMap (fun rr => rr.atoms.map (fun _ => currResname rr))
  let segids := res.protein.residues.flatMap (fun rr => rr.atoms.map PAtom.segID)
  let elements := res.protein.residues.flatMap (fun rr => rr.atoms.map PAtom.element)
  let resData0 : ResidueData := { header := res.header, pqr := res.pqr }
  let resData1 := res.protein.residues.foldl annotateResidue resData0
  let molOut := _fixupWaterNames
    (_fillMolecule name resname chain resid insertion coords segids elements)
  let resData2 := resData1.importPKAs res.protein.pka_protein
  let resData3 := { resData2 with pdb2pqrProtein := some res.protein,
                                  missedLigands := res.missedLigands }
  let resData4 := resData3.warnIfpKCloseTopH pH
  let resData5 := match hydrophobicThickness with
    | some t => if t = 0 then resData4 else resData4.setMembraneExposureAndWarn t
    | none => resData4
  { molOut := molOut, resData := resData5, molInAfter := hpair.2,
    returned := (molOut, if returnDetails then some resData5 else none),
    callRecords := pdblist, callOpts := opts, engineResult := res }

/-- Translation of prepareProtein: serialize the input structure, read it
back as atom records, raise when both the record list and the error list
are empty, and otherwise run the engines and materialize the outputs.
The first component is the ordered list of phases that ran. -/
def prepareProtein (eng : Engines) (molIn : Molecule) (pH : Rat) (verbose : Nat)
    (returnDetails : Bool) (hydrophobicThickness : Option Rat)
    (holdSelection : Option String) : List Ev × Except String PrepResult :=
  let parsed := eng.readPDB (eng.writeStructure molIn)
  if parsed.1.length = 0 ∧ parsed.2.length = 0 then
    ([Ev.exportPhase], Except.error "Internal error in preparing input to pdb2pqr")
  else
    ([Ev.exportPhase, Ev.invokePhase, Ev.materializePhase],
     Except.ok (runPrep eng molIn pH verbose returnDetails hydrophobicThickness
        holdSelection parsed.1))

/-- Residue-name rule in the wording of the specification: the
force-field name of the residue when set, truncated to its last three
characters whenever it is four or more characters long, and the plain
residue name otherwise. -/
def specResname (rr : PdbResidue) : String :=
  match rr.ffname with
  | some s =>
      if s = "" then rr.name
      else if 4 ≤ s.length then s.drop (s.length - 3)
      else s
  | none => rr.name

/-- Water-name rule in the wording of the claim: an atom named OW in a
residue named WAT becomes O; an atom named HW in a residue named WAT
becomes H1 at an even whole-molecule index and H2 at an odd one; every
other atom keeps its name. -/
def waterFixName (a : Atom) (i : Nat) : String :=
  if a.resname = "WAT" ∧ a.name = "OW" then "O"
  else if a.resname = "WAT" ∧ a.name = "HW" then if i % 2 = 0 then "H1" else "H2"
  else a.name

/-- Hold list in the wording of the claim: the (resid, chain, insertion)
triples of the carbon-alpha atoms among the atoms picked by the
selection. -/
def caHoldTriples (p : Atom → Bool) (mol : Molecule) : List (Int × String × String) :=
  (mol.atoms.filter (fun a => p a && a.name == "CA")).map
    (fun a => (a.resid, a.chain, a.insertion))

/-- Atom records contributed by one engine residue to the materialized
structure. -/
def atomsOfResidue (rr : PdbResidue) : List Atom :=
  rr.atoms.map (fun a =>
    { name := a.name, resname := currResname rr, chain := rr.chainID,
      resid := rr.resSeq, insertion := rr.iCode, coords := (a.x, a.y, a.z),
      segid := a.segID, element := a.element })

/-- Materialization of the engine output: the eight attribute lists of
the residue walk, filled into a fresh Molecule, with water names fixed. -/
def materializeMol (res : RunResult) : Molecule :=
  _fixupWaterNames (_fillMolecule
    (res.protein.residues.flatMap (fun rr => rr.atoms.map PAtom.name))
    (res.protein.residues.flatMap (fun rr => rr.atoms.map (fun _ => currResname rr)))
    (res.protein.residues.flatMap (fun rr => rr.atoms.map (fun _ => rr.chainID)))
    (res.protein.residues.flatMap (fun rr => rr.atoms.map (fun _ => rr.resSeq)))
    (res.protein.residues.flatMap (fun rr => rr.atoms.map (fun _ => rr.iCode)))
    (res.protein.residues.flatMap (fun rr => rr.atoms.map (fun a => (a.x, a.y, a.z))))
    (res.protein.residues.flatMap (fun rr => rr.atoms.map PAtom.segID))
    (res.protein.residues.flatMap (fun rr => rr.atoms.map PAtom.element)))

/-- Annotation table built from the engine output: the per-residue walk,
then the pKa import, then the attribute stores, the close-to-pH warning
and the optional membrane-exposure pass. -/
def annotationOf (res : RunResult) (pH : Rat) (ht : Option Rat) : ResidueData :=
  let rd1 := res.protein.residues.foldl annotateResidue
    { header := res.header, pqr := res.pqr }
  let rd2 := rd1.importPKAs res.protein.pka_protein
  let rd3 := { rd2 with pdb2pqrProtein := some res.protein,
                        missedLigands := res.missedLigands }
  let rd4 := rd3.warnIfpKCloseTopH pH
  match ht with
  | some t => if t = 0 then rd4 else rd4.setMembraneExposureAndWarn t
  | none => rd4

/-- Concrete engine atom used by the witness runs. -/
def watom0 : PAtom :=
  { name := "CA", x := 1, y := 2, z := 3, segID := "P1", element := "C" }

/-- Concrete engine residue used by the witness runs. -/
def wres0 : PdbResidue :=
  { name := "HIS", resSeq := 91, chainID := "A", iCode := "",
    ffname := some "HID", patches := ["PEPTIDE"], wasFlipped := some false,
    atoms := [watom0] }

/-- Concrete pKa engine record used by the witness runs. -/
def wpka0 : PkaRecord := { key := wres0.key, pKa := 6, buried := 0 }

/-- Concrete water residue used by the witness runs, with an OW atom and
two HW atoms. -/
def wwat0 : PdbResidue :=
  { name := "WAT", resSeq := 200, chainID := "W", iCode := "",
    ffname := none, patches := [], wasFlipped := none,
    atoms := [{ name := "OW", x := 0, y := 0, z := 0, segID := "W", element := "O" },
              { name := "HW", x := 1, y := 0, z := 0, segID := "W", element := "H" },
              { name := "HW", x := 0, y := 1, z := 0, segID := "W", element := "H" }] }

/-- Concrete engine result used by the witness runs. -/
def wrun0 : RunResult :=
  { header := "hdr", pqr := "pqrtext", missedLigands := ["ZN"],
    protein := { residues := [wres0, wwat0], pka_protein := [wpka0] } }

/-- Concrete engines whose interchange read succeeds. -/
def eng0 : Engines :=
  { writeStructure := fun _ => "pdbfile",
    readPDB := fun _ => ([{ raw := "ATOM" }], []),
    runPDB2PQR := fun _ _ => wrun0,
    selEval := fun _ _ => true }

/-- Concrete engines whose interchange read yields nothing at all. -/
def engEmpty : Engines :=
  { writeStructure := fun _ => "",
    readPDB := fun _ => ([], []),
    runPDB2PQR := fun _ _ => wrun0,
    selEval := fun _ _ => true }

/-- Concrete input atoms for the witness runs. -/
def matom0 : Atom :=
  { name := "CA", resname := "HIS", chain := "A", resid := 10, insertion := "",
    coords := (0, 0, 0), segid := "P1", element := "C" }

/-- Concrete input atom that is not a carbon alpha. -/
def matom1 : Atom :=
  { name := "CB", resname := "HIS", chain := "A", resid := 10, insertion := "",
    coords := (0, 0, 1), segid := "P1", element := "C" }

/-- Concrete input structure for the witness runs. -/
def mol0 : Molecule := { atoms := [matom0, matom1] }

/-- Result of the witness run with no hold selection. -/
def r0 : PrepResult :=
  runPrep eng0 mol0 7 0 true none none [{ raw := "ATOM" }]

/-- Result of the witness run with a hold selection. -/
def r1 : PrepResult :=
  runPrep eng0 mol0 7 0 true none (some "protein") [{ raw := "ATOM" }]

/-- Pointwise effect of the water fixup on the atom at global index i:
first the OW rename, then the H1 mask, then the H2 mask. -/
def waterRename (a : Atom) (i : Nat) : Atom :=
  let m1a := if selWatOW a then { a with name := "O" } else a
  let hwi := selWatHW m1a
  let m2a := if hwi && (i % 2 == 0) then { m1a with name := "H1" } else m1a
  if hwi && (i % 2 == 1) then { m2a with name := "H2" } else m2a

theorem selToHoldList_snd (ev : String → Atom → Bool) (mol : Molecule) (sel : Option String) :
    (_selToHoldList ev mol sel).2 = mol := by
  cases sel with
  | none => rfl
  | some s => by_cases hs : s = "" <;> simp [_selToHoldList, hs]

theorem prep_ok_eq {eng : Engines} {molIn : Molecule} {pH : Rat} {verbose : Nat}
    {rD : Bool} {ht : Option Rat} {hs : Option String} {r : PrepResult}
    (h : (prepareProtein eng molIn pH verbose rD ht hs).2 = Except.ok r) :
    r = runPrep eng molIn pH verbose rD ht hs
      (eng.readPDB (eng.writeStructure molIn)).1 := by
  by_cases hc : ((eng.readPDB (eng.writeStructure molIn)).1 = [] ∧
      (eng.readPDB (eng.writeStructure molIn)).2 = [])
  · simp [prepareProtein, hc.1, hc.2] at h
  · simp [prepareProtein, hc] at h
    exact h.symm

theorem prep_trace_of_ok {eng : Engines} {molIn : Molecule} {pH : Rat} {verbose : Nat}
    {rD : Bool} {ht : Option Rat} {hs : Option String} {r : PrepResult}
    (h : (prepareProtein eng molIn pH verbose rD ht hs).2 = Except.ok r) :
    (prepareProtein eng molIn pH verbose rD ht hs).1 =
      [Ev.exportPhase, Ev.invokePhase, Ev.materializePhase] := by
  by_cases hc : ((eng.readPDB (eng.writeStructure molIn)).1 = [] ∧
      (eng.readPDB (eng.writeStructure molIn)).2 = [])
  · simp [prepareProtein, hc.1, hc.2] at h
  · simp [prepareProtein, hc]

theorem runPrep_callOpts (eng : Engines) (molIn : Molecule) (pH : Rat) (verbose : Nat)
    (rD : Bool) (ht : Option Rat) (hs : Option String) (pdblist : List PdbRecord) :
    (runPrep eng molIn pH verbose rD ht hs pdblist).callOpts =
      { ph := pH, verbose := verbose, ff := "parse", ffout := "amber",
        ph_calc_method := "propka31", propkaVerbosity := verbose,
        holdList := (_selToHoldList eng.selEval molIn hs).1 } := rfl

theorem runPrep_engineResult (eng : Engines) (molIn : Molecule) (pH : Rat) (verbose : Nat)
    (rD : Bool) (ht : Option Rat) (hs : Option String) (pdblist : List PdbRecord) :
    (runPrep eng molIn pH verbose rD ht hs pdblist).engineResult =
      eng.runPDB2PQR pdblist (runPrep eng molIn pH verbose rD ht hs pdblist).callOpts := rfl

theorem runPrep_callRecords (eng : Engines) (molIn : Molecule) (pH : Rat) (verbose : Nat)
    (rD : Bool) (ht : Option Rat) (hs : Option String) (pdblist : List PdbRecord) :
    (runPrep eng molIn pH verbose rD ht hs pdblist).callRecords = pdblist := rfl

theorem runPrep_molInAfter (eng : Engines) (molIn : Molecule) (pH : Rat) (verbose : Nat)
    (rD : Bool) (ht : Option Rat) (hs : Option String) (pdblist : List PdbRecord) :
    (runPrep eng molIn pH verbose rD ht hs pdblist).molInAfter =
      (_selToHoldList eng.selEval molIn hs).2 := rfl

theorem runPrep_molOut (eng : Engines) (molIn : Molecule) (pH : Rat) (verbose : Nat)
    (rD : Bool) (ht : Option Rat) (hs : Option String) (pdblist : List PdbRecord) :
    (runPrep eng molIn pH verbose rD ht hs pdblist).molOut =
      materializeMol (runPrep eng molIn pH verbose rD ht hs pdblist).engineResult := rfl

theorem runPrep_resData (eng : Engines) (molIn : Molecule) (pH : Rat) (verbose : Nat)
    (rD : Bool) (ht : Option Rat) (hs : Option String) (pdblist : List PdbRecord) :
    (runPrep eng molIn pH verbose rD ht hs pdblist).resData =
      annotationOf (runPrep eng molIn pH verbose rD ht hs pdblist).engineResult pH ht := rfl

theorem runPrep_returned (eng : Engines) (molIn : Molecule) (pH : Rat) (verbose : Nat)
    (rD : Bool) (ht : Option Rat) (hs : Option String) (pdblist : List PdbRecord) :
    (runPrep eng molIn pH verbose rD ht hs pdblist).returned =
      ((runPrep eng molIn pH verbose rD ht hs pdblist).molOut,
       if rD then some (runPrep eng molIn pH verbose rD ht hs pdblist).resData
       else none) := rfl

theorem setNames_length (v : String) (l : List Atom) (bs : List Bool) :
    (setNames v l bs).length = l.length := by
  induction l generalizing bs with
  | nil => cases bs <;> rfl
  | cons a rest ih => cases bs <;> simp [setNames, ih]

theorem setNames_getElem? (v : String) (l : List Atom) (bs : List Bool) (i : Nat) :
    (setNames v l bs)[i]? =
      (l[i]?).map (fun a => if bs.getD i false then { a with name := v } else a) := by
  induction l generalizing bs i with
  | nil => cases bs <;> simp [setNames]
  | cons a rest ih =>
      cases bs with
      | nil =>
          cases h : (a :: rest)[i]? <;> simp [setNames, List.getD, h]
      | cons b bs =>
          cases i with
          | zero => simp [setNames, List.getD]
          | succ n => simpa [setNames, List.getD] using ih bs n

theorem setNames_map_resname (v : String) (l : List Atom) (bs : List Bool) :
    (setNames v l bs).map Atom.resname = l.map Atom.resname := by
  induction l generalizing bs with
  | nil => cases bs <;> rfl
  | cons a rest ih =>
      cases bs with
      | nil => rfl
      | cons b bs' => by_cases hb : b <;> simp [setNames, hb, ih]

theorem fixup_map_resname (m : Molecule) :
    (_fixupWaterNames m).atoms.map Atom.resname = m.atoms.map Atom.resname := by
  simp [_fixupWaterNames, Molecule.setNameMask, setNames_map_resname]

theorem zipAtoms_map_append (f1 f2 f3 : PAtom → String)
    (f4 : PAtom → Int) (f5 : PAtom → String) (f6 : PAtom → Int × Int × Int)
    (f7 f8 : PAtom → String) (l : List PAtom)
    (A1 A2 A3 : List String) (A4 : List Int) (A5 : List String)
    (A6 : List (Int × Int × Int)) (A7 A8 : List String) :
    zipAtoms (l.map f1 ++ A1) (l.map f2 ++ A2) (l.map f3 ++ A3) (l.map f4 ++ A4)
      (l.map f5 ++ A5) (l.map f6 ++ A6) (l.map f7 ++ A7) (l.map f8 ++ A8) =
    l.map (fun a =>
        { name := f1 a, resname := f2 a, chain := f3 a, resid := f4 a,
          insertion := f5 a, coords := f6 a, segid := f7 a, element := f8 a }) ++
      zipAtoms A1 A2 A3 A4 A5 A6 A7 A8 := by
  induction l with
  | nil => simp
  | cons a rest ih => simp [zipAtoms, ih]

theorem fillMolecule_atoms (rs : List PdbResidue) :
    _fillMolecule (rs.flatMap (fun rr => rr.atoms.map PAtom.name))
      (rs.flatMap (fun rr => rr.atoms.map (fun _ => currResname rr)))
      (rs.flatMap (fun rr => rr.atoms.map (fun _ => rr.chainID)))
      (rs.flatMap (fun rr => rr.atoms.map (fun _ => rr.resSeq)))
      (rs.flatMap (fun rr => rr.atoms.map (fun _ => rr.iCode)))
      (rs.flatMap (fun rr => rr.atoms.map (fun a => (a.x, a.y, a.z))))
      (rs.flatMap (fun rr => rr.atoms.map PAtom.segID))
      (rs.flatMap (fun rr => rr.atoms.map PAtom.element)) =
    { atoms := rs.flatMap atomsOfResidue } := by
  induction rs with
  | nil => rfl
  | cons rr rest ih =>
      simp only [List.flatMap_cons, _fillMolecule, Molecule.mk.injEq] at ih ⊢
      rw [zipAtoms_map_append, ih]
      simp [atomsOfResidue]

theorem materializeMol_eq (res : RunResult) :
    materializeMol res =
      _fixupWaterNames { atoms := res.protein.residues.flatMap atomsOfResidue } := by
  simp only [materializeMol, fillMolecule_atoms]

theorem patchfold_protonation (k : ResidueKey) (ps : List String) (rd : ResidueData) :
    (ps.foldl (fun acc p => acc.appendPatches k p) rd).protonation = rd.protonation := by
  induction ps generalizing rd with
  | nil => rfl
  | cons p rest ih =>
      rw [List.foldl_cons, ih]
      simp [ResidueData.appendPatches]

theorem patchfold_flippedTbl (k : ResidueKey) (ps : List String) (rd : ResidueData) :
    (ps.foldl (fun acc p => acc.appendPatches k p) rd).flippedTbl = rd.flippedTbl := by
  induction ps generalizing rd with
  | nil => rfl
  | cons p rest ih =>
      rw [List.foldl_cons, ih]
      simp [ResidueData.appendPatches]

theorem patchfold_patchesTbl (k : ResidueKey) (ps : List String) (rd : ResidueData) :
    (ps.foldl (fun acc p => acc.appendPatches k p) rd).patchesTbl =
      rd.patchesTbl ++ ps.map (fun p => (k, p)) := by
  induction ps generalizing rd with
  | nil => simp
  | cons p rest ih =>
      rw [List.foldl_cons, ih]
      simp [ResidueData.appendPatches]

theorem annotate_protonation (rd : ResidueData) (rr : PdbResidue) :
    (annotateResidue rd rr).protonation =
      rd.protonation ++ [(rr.key, currResname rr)] := by
  cases hw : rr.wasFlipped <;>
    simp [annotateResidue, hw, patchfold_protonation,
      ResidueData.setProtonationState, ResidueData.setFlipped]

theorem annotate_patchesTbl (rd : ResidueData) (rr : PdbResidue) :
    (annotateResidue rd rr).patchesTbl =
      rd.patchesTbl ++ rr.patches.map (fun p => (rr.key, p)) := by
  cases hw : rr.wasFlipped <;>
    simp [annotateResidue, hw, patchfold_patchesTbl,
      ResidueData.setProtonationState, ResidueData.setFlipped]

theorem annotate_flippedTbl (rd : ResidueData) (rr : PdbResidue) :
    (annotateResidue rd rr).flippedTbl =
      rd.flippedTbl ++
        (match rr.wasFlipped with | some b => [(rr.key, b)] | none => []) := by
  cases hw : rr.wasFlipped <;>
    simp [annotateResidue, hw, patchfold_flippedTbl,
      ResidueData.setProtonationState, ResidueData.setFlipped]

theorem foldl_protonation_mono (rs : List PdbResidue) (rd : ResidueData)
    (x : ResidueKey × String) (hx : x ∈ rd.protonation) :
    x ∈ (rs.foldl annotateResidue rd).protonation := by
  induction rs generalizing rd with
  | nil => exact hx
  | cons rr rest ih =>
      rw [List.foldl_cons]
      exact ih _ (by rw [annotate_protonation]; exact List.mem_append_left _ hx)

theorem foldl_patchesTbl_mono (rs : List PdbResidue) (rd : ResidueData)
    (x : ResidueKey × String) (hx : x ∈ rd.patchesTbl) :
    x ∈ (rs.foldl annotateResidue rd).patchesTbl := by
  induction rs generalizing rd with
  | nil => exact hx
  | cons rr rest ih =>
      rw [List.foldl_cons]
      exact ih _ (by rw [annotate_patchesTbl]; exact List.mem_append_left _ hx)

theorem foldl_flippedTbl_mono (rs : List PdbResidue) (rd : ResidueData)
    (x : ResidueKey × Bool) (hx : x ∈ rd.flippedTbl) :
    x ∈ (rs.foldl annotateResidue rd).flippedTbl := by
  induction rs generalizing rd with
  | nil => exact hx
  | cons rr rest ih =>
      rw [List.foldl_cons]
      exact ih _ (by rw [annotate_flippedTbl]; exact List.mem_append_left _ hx)

theorem mem_protonation_foldl (rs : List PdbResidue) (rd : ResidueData)
    (rr : PdbResidue) (hrr : rr ∈ rs) :
    (rr.key, currResname rr) ∈ (rs.foldl annotateResidue rd).protonation := by
  induction rs generalizing rd with
  | nil => cases hrr
  | cons r2 rest ih =>
      rw [List.foldl_cons]
      rcases List.mem_cons.mp hrr with h | h
      · subst h
        exact foldl_protonation_mono _ _ _
          (by rw [annotate_protonation]
              exact List.mem_append_right _ (List.mem_singleton.mpr rfl))
      · exact ih _ h

theorem mem_patchesTbl_foldl (rs : List PdbResidue) (rd : ResidueData)
    (rr : PdbResidue) (p : String) (hrr : rr ∈ rs) (hp : p ∈ rr.patches) :
    (rr.key, p) ∈ (rs.foldl annotateResidue rd).patchesTbl := by
  induction rs generalizing rd with
  | nil => cases hrr
  | cons r2 rest ih =>
      rw [List.foldl_cons]
      rcases List.mem_cons.mp hrr with h | h
      · subst h
        exact foldl_patchesTbl_mono _ _ _
          (by rw [annotate_patchesTbl]
              exact List.mem_append_right _ (List.mem_map_of_mem _ hp))
      · exact ih _ h

theorem mem_flippedTbl_foldl (rs : List PdbResidue) (rd : ResidueData)
    (rr : PdbResidue) (b : Bool) (hrr : rr ∈ rs) (hb : rr.wasFlipped = some b) :
    (rr.key, b) ∈ (rs.foldl annotateResidue rd).flippedTbl := by
  induction rs generalizing rd with
  | nil => cases hrr
  | cons r2 rest ih =>
      rw [List.foldl_cons]
      rcases List.mem_cons.mp hrr with h | h
      · subst h
        exact foldl_flippedTbl_mono _ _ _
          (by rw [annotate_flippedTbl, hb]
              exact List.mem_append_right _ (List.mem_singleton.mpr rfl))
      · exact ih _ h

theorem annotationOf_protonation (res : RunResult) (pH : Rat) (ht : Option Rat) :
    (annotationOf res pH ht).protonation =
      (res.protein.residues.foldl annotateResidue
        { header := res.header, pqr := res.pqr }).protonation := by
  cases ht with
  | none =>
      simp [annotationOf, ResidueData.importPKAs, ResidueData.warnIfpKCloseTopH]
  | some t =>
      by_cases h0 : t = 0 <;>
        simp [annotationOf, ResidueData.importPKAs, ResidueData.warnIfpKCloseTopH,
          ResidueData.setMembraneExposureAndWarn, h0]

theorem annotationOf_patchesTbl (res : RunResult) (pH : Rat) (ht : Option Rat) :
    (annotationOf res pH ht).patchesTbl =
      (res.protein.residues.foldl annotateResidue
        { header := res.header, pqr := res.pqr }).patchesTbl := by
  cases ht with
  | none =>
      simp [annotationOf, ResidueData.importPKAs, ResidueData.warnIfpKCloseTopH]
  | some t =>
      by_cases h0 : t = 0 <;>
        simp [annotationOf, ResidueData.importPKAs, ResidueData.warnIfpKCloseTopH,
          ResidueData.setMembraneExposureAndWarn, h0]

theorem annotationOf_flippedTbl (res : RunResult) (pH : Rat) (ht : Option Rat) :
    (annotationOf res pH ht).flippedTbl =
      (res.protein.residues.foldl annotateResidue
        { header := res.header, pqr := res.pqr }).flippedTbl := by
  cases ht with
  | none =>
      simp [annotationOf, ResidueData.importPKAs, ResidueData.warnIfpKCloseTopH]
  | some t =>
      by_cases h0 : t = 0 <;>
        simp [annotationOf, ResidueData.importPKAs, ResidueData.warnIfpKCloseTopH,
          ResidueData.setMembraneExposureAndWarn, h0]

theorem annotationOf_pkas (res : RunResult) (pH : Rat) (ht : Option Rat) :
    (annotationOf res pH ht).pkas = res.protein.pka_protein := by
  cases ht with
  | none =>
      simp [annotationOf, ResidueData.importPKAs, ResidueData.warnIfpKCloseTopH]
  | some t =>
      by_cases h0 : t = 0 <;>
        simp [annotationOf, ResidueData.importPKAs, ResidueData.warnIfpKCloseTopH,
          ResidueData.setMembraneExposureAndWarn, h0]

theorem annotationOf_missedLigands (res : RunResult) (pH : Rat) (ht : Option Rat) :
    (annotationOf res pH ht).missedLigands = res.missedLigands := by
  cases ht with
  | none =>
      simp [annotationOf, ResidueData.importPKAs, ResidueData.warnIfpKCloseTopH]
  | some t =>
      by_cases h0 : t = 0 <;>
        simp [annotationOf, ResidueData.importPKAs, ResidueData.warnIfpKCloseTopH,
          ResidueData.setMembraneExposureAndWarn, h0]

theorem fixup_length (mol : Molecule) :
    (_fixupWaterNames mol).atoms.length = mol.atoms.length := by
  simp [_fixupWaterNames, Molecule.setNameMask, Molecule.atomselect, setNames_length]

theorem waterRename_name (a : Atom) (i : Nat) :
    (waterRename a i).name = waterFixName a i := by
  by_cases h1 : a.resname = "WAT"
  · by_cases h2 : a.name = "OW"
    · simp [waterRename, selWatOW, selWatHW, waterFixName, h1, h2]
    · by_cases h3 : a.name = "HW"
      · rcases Nat.mod_two_eq_zero_or_one i with hi | hi <;>
          simp [waterRename, selWatOW, selWatHW, waterFixName, h1, h2, h3, hi]
      · simp [waterRename, selWatOW, selWatHW, waterFixName, h1, h2, h3]
  · simp [waterRename, selWatOW, selWatHW, waterFixName, h1]

theorem fixup_getElem? (mol : Molecule) (i : Nat) :
    (_fixupWaterNames mol).atoms[i]? =
      (mol.atoms[i]?).map (fun a => waterRename a i) := by
  by_cases hi : i < mol.atoms.length
  · have hL : mol.atoms[i]? = some mol.atoms[i] := List.getElem?_eq_getElem hi
    have hOW : (mol.atoms.map selWatOW).getD i false = selWatOW mol.atoms[i] := by
      rw [List.getD_eq_getElem?_getD, List.getElem?_map, hL]
      rfl
    have hM : (setNames "O" mol.atoms (mol.atoms.map selWatOW))[i]? =
        some (if selWatOW mol.atoms[i] then { mol.atoms[i] with name := "O" }
              else mol.atoms[i]) := by
      rw [setNames_getElem?, hL, Option.map_some', hOW]
    have hhw : ((setNames "O" mol.atoms (mol.atoms.map selWatOW)).map selWatHW)[i]? =
        some (selWatHW (if selWatOW mol.atoms[i] then { mol.atoms[i] with name := "O" }
              else mol.atoms[i])) := by
      rw [List.getElem?_map, hM]
      rfl
    have hlen : ((setNames "O" mol.atoms (mol.atoms.map selWatOW)).map selWatHW).length =
        mol.atoms.length := by
      simp [setNames_length]
    have hrange :
        (List.range ((setNames "O" mol.atoms (mol.atoms.map selWatOW)).map selWatHW).length)[i]? =
        some i := by
      rw [List.getElem?_range]
      rw [hlen]
      exact hi
    have hEven : (List.zipWith (fun b j => b && (j % 2 == 0))
        ((setNames "O" mol.atoms (mol.atoms.map selWatOW)).map selWatHW)
        (List.range ((setNames "O" mol.atoms (mol.atoms.map selWatOW)).map selWatHW).length)).getD i false =
        (selWatHW (if selWatOW mol.atoms[i] then { mol.atoms[i] with name := "O" }
          else mol.atoms[i]) && (i % 2 == 0)) := by
      rw [List.getD_eq_getElem?_getD, List.getElem?_zipWith', hhw, hrange]
      rfl
    have hOdd : (List.zipWith (fun b j => b && (j % 2 == 1))
        ((setNames "O" mol.atoms (mol.atoms.map selWatOW)).map selWatHW)
        (List.range ((setNames "O" mol.atoms (mol.atoms.map selWatOW)).map selWatHW).length)).getD i false =
        (selWatHW (if selWatOW mol.atoms[i] then { mol.atoms[i] with name := "O" }
          else mol.atoms[i]) && (i % 2 == 1)) := by
      rw [List.getD_eq_getElem?_getD, List.getElem?_zipWith', hhw, hrange]
      rfl
    simp only [_fixupWaterNames, Molecule.setNameMask, Molecule.atomselect]
    rw [setNames_getElem?, setNames_getElem?, hM, Option.map_some', Option.map_some',
      hEven, hOdd, hL, Option.map_some']
    simp only [waterRename]
  · have h1 : mol.atoms[i]? = none := List.getElem?_eq_none (le_of_not_lt hi)
    have h2 : (_fixupWaterNames mol).atoms[i]? = none :=
      List.getElem?_eq_none (by rw [fixup_length]; exact le_of_not_lt hi)
    rw [h1, h2]
    rfl

theorem selToHoldList_some (ev : String → Atom → Bool) (mol : Molecule) (s : String)
    (hne : s ≠ "") :
    (_selToHoldList ev mol (some s)).1 = some (caHoldTriples (ev s) mol) := by
  simp only [_selToHoldList, if_neg hne]
  simp only [Molecule.copy, Molecule.filterSel, Molecule.resid, Molecule.chain,
    Molecule.insertion, List.filter_filter]
  rw [List.zip_map', List.zip_map']
  simp only [caHoldTriples, Option.some.injEq]
  congr 1
  apply List.filter_congr
  intro x hx
  exact Bool.and_comm _ _

theorem flatMap_resname (rs : List PdbResidue) :
    (rs.flatMap atomsOfResidue).map Atom.resname =
      rs.flatMap (fun rr => rr.atoms.map (fun _ => currResname rr)) := by
  induction rs with
  | nil => rfl
  | cons rr rest ih =>
      simp only [List.flatMap_cons, List.map_append, ih, atomsOfResidue, List.map_map]
      rfl

/-- C1: for every input structure, when the run succeeds, prepareProtein
materializes from the engines output objects a new Molecule together with
the ResidueData annotation table holding a per-residue row, and returns
the pair (the table only when returnDetails is set). -/
theorem claim_C1 (eng : Engines) (molIn : Molecule) (pH : Rat) (verbose : Nat)
    (rD : Bool) (ht : Option Rat) (hs : Option String) (r : PrepResult)
    (h : (prepareProtein eng molIn pH verbose rD ht hs).2 = Except.ok r) :
    r.returned = (r.molOut, if rD then some r.resData else none) ∧
    r.molOut = _fixupWaterNames
      { atoms := r.engineResult.protein.residues.flatMap atomsOfResidue } ∧
    ∀ rr ∈ r.engineResult.protein.residues,
      (rr.key, currResname rr) ∈ r.resData.protonation := by
  have hr := prep_ok_eq h
  subst hr
  refine ⟨rfl, ?_, ?_⟩
  · rw [runPrep_molOut, materializeMol_eq]
  · intro rr hrr
    rw [runPrep_resData, annotationOf_protonation]
    exact mem_protonation_foldl _ _ _ hrr

/-- Witness for C1 at a concrete engine and structure. -/
theorem claim_C1_witness :
    r0.returned = (r0.molOut, if true then some r0.resData else none) ∧
    r0.molOut = _fixupWaterNames
      { atoms := r0.engineResult.protein.residues.flatMap atomsOfResidue } ∧
    ∀ rr ∈ r0.engineResult.protein.residues,
      (rr.key, currResname rr) ∈ r0.resData.protonation :=
  claim_C1 eng0 mol0 7 0 true none none r0 rfl

/-- C2: on the success path the three phases run exactly in the order
export, engine invocation, materialization, and the materialized
structure and table are computed from the engine call on the exported
records. -/
theorem claim_C2 (eng : Engines) (molIn : Molecule) (pH : Rat) (verbose : Nat)
    (rD : Bool) (ht : Option Rat) (hs : Option String) (r : PrepResult)
    (h : (prepareProtein eng molIn pH verbose rD ht hs).2 = Except.ok r) :
    (prepareProtein eng molIn pH verbose rD ht hs).1 =
      [Ev.exportPhase, Ev.invokePhase, Ev.materializePhase] ∧
    r.callRecords = (eng.readPDB (eng.writeStructure molIn)).1 ∧
    r.engineResult = eng.runPDB2PQR r.callRecords r.callOpts ∧
    r.molOut = materializeMol r.engineResult ∧
    r.resData = annotationOf r.engineResult pH ht := by
  have hr := prep_ok_eq h
  subst hr
  exact ⟨prep_trace_of_ok h, rfl, rfl, rfl, rfl⟩

/-- Witness for C2 at a concrete engine and structure. -/
theorem claim_C2_witness :
    (prepareProtein eng0 mol0 7 0 true none none).1 =
      [Ev.exportPhase, Ev.invokePhase, Ev.materializePhase] ∧
    r0.callRecords = (eng0.readPDB (eng0.writeStructure mol0)).1 ∧
    r0.engineResult = eng0.runPDB2PQR r0.callRecords r0.callOpts ∧
    r0.molOut = materializeMol r0.engineResult ∧
    r0.resData = annotationOf r0.engineResult 7 none :=
  claim_C2 eng0 mol0 7 0 true none none r0 rfl

/-- C3: the hold list handed to the engine is None for a missing or empty
selection, and for a nonempty selection it is the list of (resid, chain,
insertion) triples of the carbon-alpha atoms among the selected atoms. -/
theorem claim_C3 (eng : Engines) (molIn : Molecule) (pH : Rat) (verbose : Nat)
    (rD : Bool) (ht : Option Rat) (hs : Option String) (r : PrepResult)
    (h : (prepareProtein eng molIn pH verbose rD ht hs).2 = Except.ok r) :
    ((hs = none ∨ hs = some "") → r.callOpts.holdList = none) ∧
    (∀ s, hs = some s → s ≠ "" →
      r.callOpts.holdList = some (caHoldTriples (eng.selEval s) molIn)) := by
  have hr := prep_ok_eq h
  subst hr
  constructor
  · rintro (hn | he)
    · subst hn; rfl
    · subst he; rfl
  · intro s hseq hne
    subst hseq
    exact selToHoldList_some eng.selEval molIn s hne

/-- Witness for C3: a run with a selection and a run without one. -/
theorem claim_C3_witness :
    r1.callOpts.holdList = some (caHoldTriples (eng0.selEval "protein") mol0) ∧
    r0.callOpts.holdList = none :=
  ⟨(claim_C3 eng0 mol0 7 0 true none (some "protein") r1 rfl).2 "protein" rfl
      (by decide),
   (claim_C3 eng0 mol0 7 0 true none none r0 rfl).1 (Or.inl rfl)⟩

/-- C4: every residue of the engine output gets its assigned name variant
recorded, every applied patch recorded, the flip flag recorded when the
engine set one, and the missed-ligand list is stored on the table. -/
theorem claim_C4 (eng : Engines) (molIn : Molecule) (pH : Rat) (verbose : Nat)
    (rD : Bool) (ht : Option Rat) (hs : Option String) (r : PrepResult)
    (h : (prepareProtein eng molIn pH verbose rD ht hs).2 = Except.ok r) :
    (∀ rr ∈ r.engineResult.protein.residues,
      (rr.key, currResname rr) ∈ r.resData.protonation ∧
      (∀ p ∈ rr.patches, (rr.key, p) ∈ r.resData.patchesTbl) ∧
      (∀ b, rr.wasFlipped = some b → (rr.key, b) ∈ r.resData.flippedTbl)) ∧
    r.resData.missedLigands = r.engineResult.missedLigands := by
  have hr := prep_ok_eq h
  subst hr
  constructor
  · intro rr hrr
    refine ⟨?_, ?_, ?_⟩
    · rw [runPrep_resData, annotationOf_protonation]
      exact mem_protonation_foldl _ _ _ hrr
    · intro p hp
      rw [runPrep_resData, annotationOf_patchesTbl]
      exact mem_patchesTbl_foldl _ _ _ _ hrr hp
    · intro b hb
      rw [runPrep_resData, annotationOf_flippedTbl]
      exact mem_flippedTbl_foldl _ _ _ _ hrr hb
  · rw [runPrep_resData, annotationOf_missedLigands]

/-- Witness for C4: the concrete residue with a patch and a flip flag. -/
theorem claim_C4_witness :
    (wres0.key, currResname wres0) ∈ r0.resData.protonation ∧
    (wres0.key, "PEPTIDE") ∈ r0.resData.patchesTbl ∧
    (wres0.key, false) ∈ r0.resData.flippedTbl ∧
    r0.resData.missedLigands = ["ZN"] := by
  obtain ⟨h1, h2⟩ := claim_C4 eng0 mol0 7 0 true none none r0 rfl
  obtain ⟨ha, hb, hf⟩ := h1 wres0 (by decide)
  exact ⟨ha, hb "PEPTIDE" (by decide), hf false (by decide), h2.trans (by decide)⟩

/-- C5: the engine call receives the pH argument, the verbosity argument
(both as the engine verbosity and the propka verbosity), and the hold
list derived from the hold selection. -/
theorem claim_C5 (eng : Engines) (molIn : Molecule) (pH : Rat) (verbose : Nat)
    (rD : Bool) (ht : Option Rat) (hs : Option String) (r : PrepResult)
    (h : (prepareProtein eng molIn pH verbose rD ht hs).2 = Except.ok r) :
    r.callOpts.ph = pH ∧ r.callOpts.verbose = verbose ∧
    r.callOpts.propkaVerbosity = verbose ∧
    r.callOpts.holdList = (_selToHoldList eng.selEval molIn hs).1 ∧
    r.engineResult = eng.runPDB2PQR r.callRecords r.callOpts := by
  have hr := prep_ok_eq h
  subst hr
  exact ⟨rfl, rfl, rfl, rfl, rfl⟩

/-- Witness for C5 at a concrete engine and structure. -/
theorem claim_C5_witness :
    r0.callOpts.ph = 7 ∧ r0.callOpts.verbose = 0 ∧
    r0.callOpts.propkaVerbosity = 0 ∧
    r0.callOpts.holdList = (_selToHoldList eng0.selEval mol0 none).1 ∧
    r0.engineResult = eng0.runPDB2PQR r0.callRecords r0.callOpts :=
  claim_C5 eng0 mol0 7 0 true none none r0 rfl

/-- C6: the pKa engine results are imported into the returned annotation
table after the engines run. -/
theorem claim_C6 (eng : Engines) (molIn : Molecule) (pH : Rat) (verbose : Nat)
    (rD : Bool) (ht : Option Rat) (hs : Option String) (r : PrepResult)
    (h : (prepareProtein eng molIn pH verbose rD ht hs).2 = Except.ok r) :
    r.resData.pkas = r.engineResult.protein.pka_protein := by
  have hr := prep_ok_eq h
  subst hr
  rw [runPrep_resData, annotationOf_pkas]

/-- Witness for C6 at a concrete engine and structure. -/
theorem claim_C6_witness :
    r0.resData.pkas = r0.engineResult.protein.pka_protein :=
  claim_C6 eng0 mol0 7 0 true none none r0 rfl

/-- C7: prepareProtein leaves the input structure unchanged: the hold
list derivation filters only a copy, and the output structure is
materialized afresh from the engine output. -/
theorem claim_C7 (eng : Engines) (molIn : Molecule) (pH : Rat) (verbose : Nat)
    (rD : Bool) (ht : Option Rat) (hs : Option String) (r : PrepResult)
    (h : (prepareProtein eng molIn pH verbose rD ht hs).2 = Except.ok r) :
    r.molInAfter = molIn ∧
    (∀ sel, (_selToHoldList eng.selEval molIn sel).2 = molIn) ∧
    r.molOut = materializeMol r.engineResult := by
  have hr := prep_ok_eq h
  subst hr
  refine ⟨?_, fun sel => selToHoldList_snd _ _ _, rfl⟩
  rw [runPrep_molInAfter]
  exact selToHoldList_snd _ _ _

/-- Witness for C7 at a concrete engine and structure. -/
theorem claim_C7_witness :
    r1.molInAfter = mol0 ∧
    (∀ sel, (_selToHoldList eng0.selEval mol0 sel).2 = mol0) ∧
    r1.molOut = materializeMol r1.engineResult :=
  claim_C7 eng0 mol0 7 0 true none (some "protein") r1 rfl

/-- C8: when the interchange read yields both an empty record list and an
empty error list, prepareProtein raises the internal error with only the
export phase having run; otherwise it proceeds to the engine call and the
materialization. -/
theorem claim_C8 (eng : Engines) (molIn : Molecule) (pH : Rat) (verbose : Nat)
    (rD : Bool) (ht : Option Rat) (hs : Option String) :
    ((eng.readPDB (eng.writeStructure molIn)).1 = [] ∧
        (eng.readPDB (eng.writeStructure molIn)).2 = [] →
      prepareProtein eng molIn pH verbose rD ht hs =
        ([Ev.exportPhase],
         Except.error "Internal error in preparing input to pdb2pqr")) ∧
    (¬ ((eng.readPDB (eng.writeStructure molIn)).1 = [] ∧
        (eng.readPDB (eng.writeStructure molIn)).2 = []) →
      prepareProtein eng molIn pH verbose rD ht hs =
        ([Ev.exportPhase, Ev.invokePhase, Ev.materializePhase],
         Except.ok (runPrep eng molIn pH verbose rD ht hs
            (eng.readPDB (eng.writeStructure molIn)).1))) := by
  constructor
  · intro hc
    simp [prepareProtein, hc.1, hc.2]
  · intro hc
    simp [prepareProtein, hc]

/-- Witness for C8: an engine whose read yields nothing raises, an engine
whose read yields a record proceeds. -/
theorem claim_C8_witness :
    prepareProtein engEmpty mol0 7 0 true none none =
      ([Ev.exportPhase],
       Except.error "Internal error in preparing input to pdb2pqr") ∧
    prepareProtein eng0 mol0 7 0 true none none =
      ([Ev.exportPhase, Ev.invokePhase, Ev.materializePhase], Except.ok r0) :=
  ⟨(claim_C8 engEmpty mol0 7 0 true none none).1 ⟨rfl, rfl⟩,
   (claim_C8 eng0 mol0 7 0 true none none).2 (by decide)⟩

/-- C9: in the output structure every atom of an engine residue carries
that residues name: the force-field name when set, truncated to its last
three characters when four or more long, and the plain name otherwise. -/
theorem claim_C9 (eng : Engines) (molIn : Molecule) (pH : Rat) (verbose : Nat)
    (rD : Bool) (ht : Option Rat) (hs : Option String) (r : PrepResult)
    (h : (prepareProtein eng molIn pH verbose rD ht hs).2 = Except.ok r) :
    r.molOut.atoms.map Atom.resname =
      r.engineResult.protein.residues.flatMap
        (fun rr => rr.atoms.map (fun _ => specResname rr)) := by
  have hr := prep_ok_eq h
  subst hr
  rw [runPrep_molOut, materializeMol_eq, fixup_map_resname, flatMap_resname]
  rfl

/-- Witness for C9 at a concrete engine and structure. -/
theorem claim_C9_witness :
    r0.molOut.atoms.map Atom.resname =
      r0.engineResult.protein.residues.flatMap
        (fun rr => rr.atoms.map (fun _ => specResname rr)) :=
  claim_C9 eng0 mol0 7 0 true none none r0 rfl

/-- C10: in the output structure, relative to the structure as
materialized before the water fixup, an OW atom of a WAT residue is
renamed O, and an HW atom of a WAT residue is renamed H1 at an even
whole-molecule index and H2 at an odd one. -/
theorem claim_C10 (eng : Engines) (molIn : Molecule) (pH : Rat) (verbose : Nat)
    (rD : Bool) (ht : Option Rat) (hs : Option String) (r : PrepResult)
    (h : (prepareProtein eng molIn pH verbose rD ht hs).2 = Except.ok r) (i : Nat) :
    (r.molOut.atoms[i]?).map Atom.name =
      ((({ atoms := r.engineResult.protein.residues.flatMap atomsOfResidue } :
          Molecule).atoms[i]?).map (fun a => waterFixName a i)) := by
  have hr := prep_ok_eq h
  subst hr
  rw [runPrep_molOut, materializeMol_eq, fixup_getElem?]
  cases hx : ({ atoms := ((runPrep eng molIn pH verbose rD ht hs
      (eng.readPDB (eng.writeStructure molIn)).1).engineResult.protein.residues.flatMap
        atomsOfResidue) } : Molecule).atoms[i]? with
  | none => rfl
  | some a => simp [waterRename_name]

/-- Witness for C10: the second water hydrogen sits at even global index
two and is renamed H1, while the atom there was named HW before the
fixup. -/
theorem claim_C10_witness :
    (r0.molOut.atoms[2]?).map Atom.name = some "H1" ∧
    (r0.molOut.atoms[3]?).map Atom.name = some "H2" :=
  ⟨(claim_C10 eng0 mol0 7 0 true none none r0 rfl 2).trans (by decide),
   (claim_C10 eng0 mol0 7 0 true none none r0 rfl 3).trans (by decide)⟩
